import Mathlib

/-!
Verification development for the `streamlit-demo` repository
(`src/frontend/app.py` plus a FastAPI backend).

The frontend is shallowly embedded: a pandas `DataFrame` of event
editions is a `List Row` (typed columns accessed by the code) or, for
the raw fetched frame, a column-major `Frame` of `Cell`s that may be
missing (`Cell.null` models `NaN`).  Python strings are Lean `String`s;
`None`-able parameters are `Option`s; floating-point coordinate
literals, on which the code performs no arithmetic (only dictionary
lookup), are stored exactly as integers scaled by 10^6.
-/

namespace StreamlitDemo

/-- One flattened event-edition record, with the columns that
`src/frontend/app.py` accesses by name. -/
structure Row where
  game_id : Int
  year : Int
  host : String
  event_type : String
  participants_total : Int
  participants_m : Int
  participants_f : Int
  countries_count : Int
  sports : Int
deriving DecidableEq

/-! ## §2 of app.py: data fetching and cleaning (`load_data`) -/

/-- A raw JSON/DataFrame cell: missing (pandas `NaN`/`None`), an
integer, or a string.  `fillna(0)` turns `null` into `intV 0` even in
string-typed columns. -/
inductive Cell where
  | null
  | intV (n : Int)
  | strV (s : String)
deriving DecidableEq

/-- A named column of the raw frame. -/
abbrev Column := String × List Cell

/-- The raw fetched frame, column-major (the cleaning loop in
`load_data` iterates over `df.columns`). -/
abbrev Frame := List Column

/-- The cleaning step `df[col].fillna(0)`: replace every missing cell of one column by
the integer `0`, leaving present cells untouched. -/
def fillna0 (c : List Cell) : List Cell :=
  c.map fun x => match x with
    | Cell.null => Cell.intV 0
    | v => v

/-- The possible outcomes of `requests.get(API_URL)`: a response with a
status code and (when the client reads it) a JSON body already shaped
as a frame, or a raised connection error. -/
inductive FetchOutcome where
  | response (status : Nat) (body : Frame)
  | connError (msg : String)

/-- What `load_data` produces: the working table, and whether
`st.error` was shown. -/
structure LoadResult where
  table : Frame
  errorShown : Bool
deriving DecidableEq

/-- Function `load_data` from app.py: on a 200 response, build the DataFrame and
run the `fillna(0)` cleaning loop over every column; on any other
status, or on an exception, show an error and return an empty frame. -/
def load_data (f : FetchOutcome) : LoadResult :=
  match f with
  | FetchOutcome.response status body =>
      if status = 200 then
        { table := body.map fun col => (col.1, fillna0 col.2), errorShown := false }
      else
        { table := [], errorShown := true }
  | FetchOutcome.connError _ => { table := [], errorShown := true }

/-! ## §3 of app.py: local functions mimicking the REST API -/

/-- Function `local_get_all`: identity passthrough. -/
def local_get_all (df : List Row) : List Row := df

/-- Function `local_get_by_id`: boolean-mask selection on `game_id`, then
`result.iloc[0] if not result.empty else None`. -/
def local_get_by_id (df : List Row) (game_id : Int) : Option Row :=
  let result := df.filter fun r => r.game_id == game_id
  match result with
  | [] => none
  | r :: _ => some r

/-- Python truthiness of the `event_type` argument combined with the
sentinel test: `if event_type and event_type != "All"`. -/
def typeFilterActive : Option String → Bool
  | none => false
  | some t => t ≠ "" && t ≠ "All"

/-- The default bounds of `local_filter_by_type_and_year`. -/
def DEFAULT_MIN_YEAR : Int := 1960

/-- The default bounds of `local_filter_by_type_and_year`. -/
def DEFAULT_MAX_YEAR : Int := 2030

/-- Python's `str.lower()`, character by character on the string's
data (the repository's event types and requests are ASCII). -/
def pyLower (s : String) : String := String.mk (s.data.map Char.toLower)

/-- Function `local_filter_by_type_and_year`: copy the frame; when the requested
type is truthy and not `"All"`, keep rows whose `event_type` equals the
lowercased request; then keep rows with `min_year <= year <= max_year`. -/
def local_filter_by_type_and_year (df : List Row) (event_type : Option String)
    (min_year : Int) (max_year : Int) : List Row :=
  let filtered_df := df
  let filtered_df :=
    if typeFilterActive event_type then
      filtered_df.filter fun r => r.event_type == pyLower (event_type.getD "")
    else filtered_df
  filtered_df.filter fun r => min_year ≤ r.year && r.year ≤ max_year

/-- Calling `local_filter_by_type_and_year` without the optional year
arguments (they default to `1960` and `2030` in the Python signature). -/
def local_filter_by_type_and_year_defaults (df : List Row) (event_type : Option String) : List Row :=
  local_filter_by_type_and_year df event_type DEFAULT_MIN_YEAR DEFAULT_MAX_YEAR

/-- The row predicate the spec claims `local_filter_by_type_and_year`
realises, written from the spec's words: the year lies in the bounds
and, when a type other than `"All"` is requested, the row's
`event_type` LOWERCASED equals the lowercased request. -/
def specFilterPred (event_type : Option String) (min_year max_year : Int) (r : Row) : Bool :=
  (min_year ≤ r.year && r.year ≤ max_year) &&
    (if typeFilterActive event_type then pyLower r.event_type == pyLower (event_type.getD "")
     else true)

/-- The row predicate the code actually realises: as `specFilterPred`,
except that the row's stored `event_type` is compared verbatim with the
lowercased request. -/
def codeFilterPred (event_type : Option String) (min_year max_year : Int) (r : Row) : Bool :=
  (min_year ≤ r.year && r.year ≤ max_year) &&
    (if typeFilterActive event_type then r.event_type == pyLower (event_type.getD "")
     else true)

/-! ## Host-city coordinates and `get_lat_lon` -/

/-- A latitude/longitude pair.  The Python literals are decimal floats
on which the code only ever performs dictionary lookup, so they are
stored exactly, scaled by `10^6` (e.g. `41.9028` is `41902800`). -/
structure Coord where
  latE6 : Int
  lonE6 : Int
deriving DecidableEq

/-- The fixed `HOST_COORDINATES` dictionary of app.py, in source order. -/
def HOST_COORDINATES : List (String × Coord) := [
  ("Rome", ⟨41902800, 12496400⟩),
  ("Tokyo", ⟨35676200, 139650300⟩),
  ("Tel Aviv", ⟨32085300, 34781800⟩),
  ("Heidelberg", ⟨49398800, 8672400⟩),
  ("Toronto", ⟨43651070, -79347015⟩),
  ("Arnhem", ⟨51985100, 5898700⟩),
  ("Stoke Mandeville", ⟨51800000, -810000⟩),
  ("New York", ⟨40712800, -74006000⟩),
  ("Seoul", ⟨37566500, 126978000⟩),
  ("Barcelona", ⟨41385100, 2173400⟩),
  ("Atlanta", ⟨33749000, -84388000⟩),
  ("Sydney", ⟨-33868800, 151209300⟩),
  ("Athens", ⟨37983800, 23727500⟩),
  ("Beijing", ⟨39904200, 116407400⟩),
  ("London", ⟨51507400, -127800⟩),
  ("Rio", ⟨-22906800, -43172900⟩),
  ("Ã–rnskÃ¶ldsvik", ⟨63290500, 18715300⟩),
  ("Geilo", ⟨60533300, 8207600⟩),
  ("Innsbruck", ⟨47269200, 11404100⟩),
  ("Tignes-Albertville", ⟨45670000, 6390000⟩),
  ("Lillehammer", ⟨61115300, 10466200⟩),
  ("Nagano", ⟨36648600, 138194200⟩),
  ("Salt Lake City", ⟨40760800, -111891000⟩),
  ("Torino", ⟨45070300, 7686900⟩),
  ("Vancouver", ⟨49282700, -123120700⟩),
  ("Sochi", ⟨43602800, 39734200⟩),
  ("PyeongChang", ⟨37370400, 128390200⟩),
  ("Paris", ⟨48856600, 2352200⟩),
  ("Milan", ⟨45464200, 9190000⟩),
  ("Brisbane", ⟨-27469800, 153025100⟩),
  ("Los Angeles", ⟨34052200, -118243700⟩),
  ("French Alps", ⟨45500000, 6500000⟩)]

/-- The expression `host_name.split(',')[0]` as characters: everything before the
first comma (Python's `split` always yields at least one field). -/
def takeUntilComma : List Char → List Char
  | [] => []
  | c :: cs => if c = ',' then [] else c :: takeUntilComma cs

/-- Python `str.strip()`: drop whitespace from both ends. -/
def pyStrip (l : List Char) : List Char :=
  ((l.dropWhile Char.isWhitespace).reverse.dropWhile Char.isWhitespace).reverse

/-- The assignment
`first_host = host_name.split(',')[0].strip() if host_name else ""`:
the stripped first comma-separated field of a truthy host, otherwise
the empty string. -/
def firstHost : Option String → String
  | some s => if s ≠ "" then String.mk (pyStrip (takeUntilComma s.data)) else ""
  | none => ""

/-- The dictionary test and subscript
`if first_host in HOST_COORDINATES: return lat, lon` followed by
`return None, None`: the coordinates of the (unique) matching key, or
`(None, None)` when the key is absent. -/
def coordLookup (name : String) : Option Int × Option Int :=
  match (HOST_COORDINATES.filter fun p => p.1 == name) with
  | (_, c) :: _ => (some c.latE6, some c.lonE6)
  | [] => (none, none)

/-- Function `get_lat_lon` from app.py: take the first comma-separated
city of a truthy host string, strip it, and look it up in
`HOST_COORDINATES`; a falsy (`None` or empty) host or an unknown city
yields `(None, None)`. -/
def get_lat_lon (host_name : Option String) : Option Int × Option Int :=
  coordLookup (firstHost host_name)

/-! ## §4 of app.py: the `main` render pass -/

/-- Stable insertion of a row into a year-ascending sorted list: the
inserted row stays behind rows with strictly smaller years only, so
equal-year rows keep their original relative order. -/
def insertYearAsc (r : Row) : List Row → List Row
  | [] => [r]
  | x :: xs => if x.year < r.year then x :: insertYearAsc r xs else r :: x :: xs

/-- The ascending argsort of the frame by year, stable: on frames of
this dataset's size numpy's argsort runs its insertion-sort fallback,
which keeps equal-year rows in table order. -/
def sortYearAsc : List Row → List Row
  | [] => []
  | r :: rs => insertYearAsc r (sortYearAsc rs)

/-- The call `df.sort_values('year', ascending=False)`: pandas computes
the ASCENDING argsort and reverses the whole indexer, so equal-year
rows come out in REVERSED table order — the descending sort is not a
first-row-wins stable sort. -/
def sortYearDesc (l : List Row) : List Row := (sortYearAsc l).reverse

/-- The label `"{year} - {host} ({event_type})"` of one edition in the
detail-selector dictionary of Tab 3. -/
def gameLabel (r : Row) : String :=
  toString r.year ++ " - " ++ r.host ++ " (" ++ r.event_type ++ ")"

/-- Auxiliary loop of `dedupFirst`, carrying the labels already seen. -/
def dedupAux : List String → List String → List String
  | [], _ => []
  | x :: xs, seen => if x ∈ seen then dedupAux xs seen else x :: dedupAux xs (x :: seen)

/-- Building a Python dict keyed by label keeps each label once, at its
first-insertion position; `list(game_options.keys())` is therefore the
label list with later duplicates removed. -/
def dedupFirst (l : List String) : List String := dedupAux l []

/-- Everything the dashboard branch of `main` computes from the data:
the four key metrics, the filtered table every chart receives, and the
detail-selector option labels. -/
structure Dashboard where
  total_games : Nat
  total_athletes : Int
  total_countries : Int
  latest_host : Option String
  chart_table : List Row
  detail_options : List String
deriving DecidableEq

/-- The outcome of one `main` render pass: the early-return warning on
an empty table, or a full dashboard. -/
inductive RenderResult where
  | warningEmpty
  | rendered (d : Dashboard)
deriving DecidableEq

/-- The dashboard branch of `main` from app.py, as a function of the
loaded table and the user's widget selections: filter via
`local_filter_by_type_and_year` and compute the metrics, the charts'
input, and the detail options.  `latest_host` is `iloc[0]` of the
year-descending sort of the filtered table; `none` records that the
subscript would raise on an empty frame. -/
def mainDashboard (raw_df : List Row) (selected_type : String) (lo hi : Int) : Dashboard :=
  let filtered_df := local_filter_by_type_and_year raw_df (some selected_type) lo hi
  { total_games := filtered_df.length
    total_athletes := (filtered_df.map Row.participants_total).sum
    total_countries := (filtered_df.map Row.countries_count).sum
    latest_host := (sortYearDesc filtered_df).head?.map Row.host
    chart_table := filtered_df
    detail_options := dedupFirst ((sortYearDesc raw_df).map gameLabel) }

/-- The early-return guard of `main`: `if raw_df.empty: st.warning(...);
return`, otherwise the dashboard branch. -/
def main (raw_df : List Row) (selected_type : String) (lo hi : Int) : RenderResult :=
  if raw_df = [] then RenderResult.warningEmpty
  else RenderResult.rendered (mainDashboard raw_df selected_type lo hi)

/-! ## Spec-side definitions (written from the spec's words) -/

/-- Modelled from the spec's words for §4.5: the Latest Host in Range is
the host of the most recent edition by year within the filtered set,
ties broken by stable sort on year descending with the first row
winning — i.e. the host of the first row attaining the maximal year —
and absent when the filtered set is empty. -/
def specLatestHost (F : List Row) : Option String :=
  (F.find? fun r => F.all fun x => decide (x.year ≤ r.year)).map Row.host

/-- The Latest Host value the code's sort actually realises: the first
row of the REVERSED table attaining the maximal year — that is, the
LAST row in table order among the tied most-recent editions — absent
on the empty filtered table, where the real `iloc[0]` would raise. -/
def lastMaxYearHost (F : List Row) : Option String :=
  (F.reverse.find? fun r => F.all fun x => decide (x.year ≤ r.year)).map Row.host

/-- Written from the spec's words for §4.3: the working table contains
no missing-value markers in any column. -/
def noMissingCells (t : Frame) : Bool :=
  t.all fun col => col.2.all fun x => !(x == Cell.null)

/-! ## Effect-threaded versions of the local query functions

Python can only mutate the argument frame through in-place pandas
operations; the bodies of the three mimic functions use `df.copy()` and
boolean-mask subscription, both of which build new frames and leave the
receiver untouched.  The `_st` versions below thread the argument frame
through each source statement, pairing the returned value with the
frame's value after the call. -/

/-- `df.copy()`: a new frame with the same rows; the receiver is not
modified. -/
def pandasCopy (df : List Row) : List Row := df

/-- Boolean-mask subscription `df[mask]`: a new frame holding the rows
satisfying the mask; the receiver is not modified. -/
def pandasMask (p : Row → Bool) (df : List Row) : List Row := df.filter p

/-- `local_get_all` with the argument frame threaded through the body
(`return df` performs no operation on it). -/
def local_get_all_st (df : List Row) : List Row × List Row :=
  (df, df)

/-- `local_get_by_id` with the argument frame threaded through the
body: the mask subscription reads `df` without modifying it. -/
def local_get_by_id_st (df : List Row) (game_id : Int) : Option Row × List Row :=
  let result := pandasMask (fun r => r.game_id == game_id) df
  ((match result with
    | [] => none
    | r :: _ => some r), df)

/-- `local_filter_by_type_and_year` with the argument frame threaded
through the body: every statement rebinds the local `filtered_df`,
starting from `df.copy()`; `df` itself is only read. -/
def local_filter_by_type_and_year_st (df : List Row) (event_type : Option String)
    (min_year : Int) (max_year : Int) : List Row × List Row :=
  let filtered_df := pandasCopy df
  let filtered_df :=
    if typeFilterActive event_type then
      pandasMask (fun r => r.event_type == pyLower (event_type.getD "")) filtered_df
    else filtered_df
  (pandasMask (fun r => min_year ≤ r.year && r.year ≤ max_year) filtered_df, df)

/-! ## Sample rows used by concrete instances -/

/-- The single edition of the spec's end-to-end scenario. -/
def romeRow : Row :=
  { game_id := 1, year := 1960, host := "Rome", event_type := "summer",
    participants_total := 400, participants_m := 0, participants_f := 0,
    countries_count := 23, sports := 0 }

/-- A row whose stored `event_type` is not lowercase. -/
def c1Row : Row :=
  { game_id := 1, year := 2000, host := "Oslo", event_type := "Summer",
    participants_total := 0, participants_m := 0, participants_f := 0,
    countries_count := 0, sports := 0 }

/-- The 1992 summer edition: its year ties with the winter edition of
the same year. -/
def barcelona92 : Row :=
  { game_id := 2, year := 1992, host := "Barcelona", event_type := "summer",
    participants_total := 3001, participants_m := 0, participants_f := 0,
    countries_count := 83, sports := 0 }

/-- The 1992 winter edition: its year ties with `barcelona92`. -/
def tignes92 : Row :=
  { game_id := 3, year := 1992, host := "Tignes-Albertville", event_type := "winter",
    participants_total := 365, participants_m := 0, participants_f := 0,
    countries_count := 24, sports := 0 }

/-! ## Helper lemmas -/

/-- The two composed mask selections of `local_filter_by_type_and_year`
amount to one filter by the conjunction of the year-bounds test and the
(possibly inactive) type test. -/
theorem local_filter_eq_filter (df : List Row) (t : Option String) (lo hi : Int) :
    local_filter_by_type_and_year df t lo hi = df.filter (codeFilterPred t lo hi) := by
  unfold local_filter_by_type_and_year codeFilterPred
  by_cases h : typeFilterActive t = true
  · simp only [h, if_true, List.filter_filter]
  · simp [h]

/-! ## C1 -/

/-- C1, counterexample: on a table holding one row whose stored
`event_type` is `"Summer"` (not lowercase), the claim's predicate —
year in `[1960, 2030]` and the row's `event_type` LOWERCASED equal to
the lowercased request — keeps the row, but
`local_filter_by_type_and_year` drops it: the code compares the stored
`event_type` verbatim against the lowercased request. -/
theorem C1_counterexample :
    specFilterPred (some "Summer") 1960 2030 c1Row = true ∧
    [c1Row].filter (specFilterPred (some "Summer") 1960 2030) = [c1Row] ∧
    local_filter_by_type_and_year [c1Row] (some "Summer") 1960 2030 = [] := by
  decide

/-- C1, amended: `local_filter_by_type_and_year T t lo hi` is exactly
the subset of `T` (no rows added or dropped, order kept) whose year
lies in `[lo, hi]` and whose stored `event_type`, compared VERBATIM
(not lowercased), equals the lowercased request when `t` is provided
and not `"All"`; the bounds default to `1960` and `2030` when
unspecified. -/
theorem C1_filter_by_type_and_year (df : List Row) (t : Option String) (lo hi : Int) :
    local_filter_by_type_and_year df t lo hi = df.filter (codeFilterPred t lo hi) ∧
    local_filter_by_type_and_year_defaults df t = local_filter_by_type_and_year df t 1960 2030 :=
  ⟨local_filter_eq_filter df t lo hi, rfl⟩

/-! ## C6 -/

/-- C6: whenever the fetch returns a non-200 status or raises a
connection error, `load_data` shows a visible error (`st.error`) and
returns an empty table instead of raising. -/
theorem C6_load_data_failure_empty :
    (∀ (st : Nat) (body : Frame), st ≠ 200 →
        load_data (FetchOutcome.response st body) = ⟨[], true⟩) ∧
    (∀ msg : String, load_data (FetchOutcome.connError msg) = ⟨[], true⟩) := by
  constructor
  · intro st body h
    simp [load_data, h]
  · intro msg
    rfl

/-- C6, witness: a 500 response yields the empty table with the error
shown. -/
theorem C6_witness : load_data (FetchOutcome.response 500 []) = ⟨[], true⟩ :=
  C6_load_data_failure_empty.1 500 [] (by decide)

/-! ## C7 -/

/-- C7: the `main` render pass emits the early-return warning — and so
computes no aggregate metric, chart or detail view — exactly when the
loaded table is empty; on a nonempty table it renders the dashboard. -/
theorem C7_empty_table_short_circuit (df : List Row) (sel : String) (lo hi : Int) :
    main df sel lo hi = RenderResult.warningEmpty ↔ df = [] := by
  unfold main
  by_cases h : df = []
  · simp [h]
  · simp [h]

/-- C7, witness: the empty table short-circuits. -/
theorem C7_witness : main [] "All" 1960 2030 = RenderResult.warningEmpty :=
  (C7_empty_table_short_circuit [] "All" 1960 2030).mpr rfl

/-! ## C8 -/

/-- C8: the three local query functions, with the argument frame
threaded through every statement of their bodies, leave it unchanged
(they are built from `df.copy()` and boolean-mask subscription only),
and their returned values are those of the pure functions. -/
theorem C8_no_mutation (df : List Row) (i : Int) (t : Option String) (lo hi : Int) :
    (local_get_all_st df).2 = df ∧
    (local_get_by_id_st df i).2 = df ∧
    (local_filter_by_type_and_year_st df t lo hi).2 = df ∧
    (local_get_all_st df).1 = local_get_all df ∧
    (local_get_by_id_st df i).1 = local_get_by_id df i ∧
    (local_filter_by_type_and_year_st df t lo hi).1
      = local_filter_by_type_and_year df t lo hi :=
  ⟨rfl, rfl, rfl, rfl, rfl, rfl⟩

/-! ## Sorting lemmas for the Latest Host metric -/

/-- Membership is preserved by stable insertion. -/
theorem mem_insertYearAsc {x r : Row} : ∀ {l : List Row},
    x ∈ insertYearAsc r l ↔ x = r ∨ x ∈ l := by
  intro l
  induction l with
  | nil => simp [insertYearAsc]
  | cons a as ih =>
    unfold insertYearAsc
    by_cases h : a.year < r.year
    · rw [if_pos h]
      simp only [List.mem_cons, ih]
      tauto
    · rw [if_neg h]
      simp only [List.mem_cons]

/-- Membership is preserved by the ascending argsort. -/
theorem mem_sortYearAsc {x : Row} : ∀ {l : List Row}, x ∈ sortYearAsc l ↔ x ∈ l := by
  intro l
  induction l with
  | nil => simp [sortYearAsc]
  | cons a as ih =>
    simp only [sortYearAsc, mem_insertYearAsc, ih, List.mem_cons]

/-- Stable insertion preserves the year-ascending ordering. -/
theorem pairwise_insertYearAsc {r : Row} : ∀ {l : List Row},
    (l.Pairwise fun a b => a.year ≤ b.year) →
    (insertYearAsc r l).Pairwise fun a b => a.year ≤ b.year := by
  intro l
  induction l with
  | nil => intro _; simp [insertYearAsc]
  | cons a as ih =>
    intro h
    rcases List.pairwise_cons.mp h with ⟨ha, has⟩
    unfold insertYearAsc
    by_cases hc : a.year < r.year
    · rw [if_pos hc]
      refine List.pairwise_cons.mpr ⟨?_, ih has⟩
      intro b hb
      rcases mem_insertYearAsc.mp hb with hb | hb
      · subst hb; exact le_of_lt hc
      · exact ha b hb
    · rw [if_neg hc]
      refine List.pairwise_cons.mpr ⟨?_, h⟩
      intro b hb
      rcases List.mem_cons.mp hb with hb | hb
      · subst hb; exact le_of_not_lt hc
      · exact le_trans (le_of_not_lt hc) (ha b hb)

/-- The ascending argsort is sorted. -/
theorem pairwise_sortYearAsc : ∀ (l : List Row),
    (sortYearAsc l).Pairwise fun a b => a.year ≤ b.year
  | [] => List.Pairwise.nil
  | _ :: as => pairwise_insertYearAsc (pairwise_sortYearAsc as)

/-- Stable insertion never yields the empty list. -/
theorem insertYearAsc_ne_nil (r : Row) : ∀ (l : List Row), insertYearAsc r l ≠ [] := by
  intro l
  cases l with
  | nil => simp [insertYearAsc]
  | cons a as =>
    unfold insertYearAsc
    split <;> simp

/-- The argsort yields the empty list only on the empty list. -/
theorem sortYearAsc_eq_nil {l : List Row} : sortYearAsc l = [] ↔ l = [] := by
  cases l with
  | nil => simp [sortYearAsc]
  | cons a as =>
    simp only [sortYearAsc]
    exact ⟨fun h => absurd h (insertYearAsc_ne_nil a (sortYearAsc as)), fun h => by cases h⟩

/-- The last element of a stable ascending insertion: the inserted row
when it strictly dominates every present row, the old last element
otherwise. -/
theorem getLast?_insertYearAsc (r : Row) : ∀ (l : List Row),
    (insertYearAsc r l).getLast? =
      if l.all (fun x => decide (x.year < r.year)) = true then some r else l.getLast? := by
  intro l
  induction l with
  | nil => rfl
  | cons x xs ih =>
    show (if x.year < r.year then x :: insertYearAsc r xs else r :: x :: xs).getLast? = _
    by_cases hc : x.year < r.year
    · rw [if_pos hc]
      cases hi : insertYearAsc r xs with
      | nil => exact absurd hi (insertYearAsc_ne_nil r xs)
      | cons y ys =>
        rw [List.getLast?_cons_cons, ← hi, ih]
        by_cases ha : xs.all (fun x => decide (x.year < r.year)) = true
        · have hcons : (x :: xs).all (fun x => decide (x.year < r.year)) = true := by
            rw [List.all_cons, ha, Bool.and_true]
            exact decide_eq_true hc
          rw [if_pos ha, if_pos hcons]
        · have hcons : ¬ (x :: xs).all (fun x => decide (x.year < r.year)) = true :=
            fun hall => ha (List.all_eq_true.mpr fun y hy =>
              List.all_eq_true.mp hall y (List.mem_cons_of_mem x hy))
          rw [if_neg ha, if_neg hcons]
          cases xs with
          | nil => exact absurd rfl ha
          | cons b bs => rw [List.getLast?_cons_cons]
    · have hcons : ¬ (x :: xs).all (fun x => decide (x.year < r.year)) = true :=
        fun hall => hc (of_decide_eq_true
          (List.all_eq_true.mp hall x (List.mem_cons_self x xs)))
      rw [if_neg hc, List.getLast?_cons_cons, if_neg hcons]

/-- The last element of the ascending argsort is the LAST row of the
original list attaining its maximal year: every row after it has a
strictly smaller year. -/
theorem sortYearAsc_getLast_last_max : ∀ (l : List Row) {m : Row},
    (sortYearAsc l).getLast? = some m →
    ∃ l₁ l₂, l = l₁ ++ m :: l₂ ∧ ∀ x ∈ l₂, x.year < m.year := by
  intro l
  induction l with
  | nil => intro m h; exact Option.noConfusion h
  | cons a as ih =>
    intro m h
    rw [show sortYearAsc (a :: as) = insertYearAsc a (sortYearAsc as) from rfl,
      getLast?_insertYearAsc] at h
    by_cases hall : (sortYearAsc as).all (fun x => decide (x.year < a.year)) = true
    · rw [if_pos hall] at h
      injection h with h
      subst h
      refine ⟨[], as, rfl, ?_⟩
      intro x hx
      exact of_decide_eq_true
        (List.all_eq_true.mp hall x (mem_sortYearAsc.mpr hx))
    · rw [if_neg hall] at h
      obtain ⟨l₁, l₂, hdec, hlt⟩ := ih h
      exact ⟨a :: l₁, l₂, by rw [hdec, List.cons_append], hlt⟩

/-- In a year-ascending sorted list, the last element's year dominates
every element. -/
theorem getLast?_max_of_pairwise : ∀ {l : List Row} {m : Row},
    (l.Pairwise fun a b => a.year ≤ b.year) → l.getLast? = some m →
    ∀ x ∈ l, x.year ≤ m.year := by
  intro l
  induction l with
  | nil => intro m _ h; exact Option.noConfusion h
  | cons a as ih =>
    intro m hp hl x hx
    cases as with
    | nil =>
      have hm : a = m := by injection hl
      rcases List.mem_cons.mp hx with hx | hx
      · subst hx
        exact le_of_eq (congrArg Row.year hm)
      · cases hx
    | cons b bs =>
      rw [List.getLast?_cons_cons] at hl
      rcases List.pairwise_cons.mp hp with ⟨ha, hp2⟩
      rcases List.mem_cons.mp hx with hx | hx
      · subst hx
        exact ha m (List.mem_of_mem_getLast? hl)
      · exact ih hp2 hl x hx

/-- The head of the reversed ascending argsort, projected to its host,
is the host of the last row in table order attaining the maximal year,
absent exactly on the empty table. -/
theorem latest_host_eq_lastMaxYearHost (F : List Row) :
    ((sortYearDesc F).head?).map Row.host = lastMaxYearHost F := by
  unfold sortYearDesc lastMaxYearHost
  rw [List.head?_reverse]
  cases hl : (sortYearAsc F).getLast? with
  | none =>
    have hF : F = [] := sortYearAsc_eq_nil.mp (List.getLast?_eq_none_iff.mp hl)
    subst hF
    rfl
  | some m =>
    obtain ⟨l₁, l₂, hdec, hlt⟩ := sortYearAsc_getLast_last_max F hl
    have hmax : ∀ x ∈ F, x.year ≤ m.year := fun x hx =>
      getLast?_max_of_pairwise (pairwise_sortYearAsc F) hl x (mem_sortYearAsc.mpr hx)
    have hrev : F.reverse = l₂.reverse ++ m :: l₁.reverse := by
      rw [hdec]
      simp
    have key : ∀ p : Row → Bool, (∀ a ∈ l₂.reverse, p a = false) → p m = true →
        F.reverse.find? p = some m := by
      intro p hfalse htrue
      rw [hrev, List.find?_append]
      have h1 : l₂.reverse.find? p = none :=
        List.find?_eq_none.mpr fun a ha => by simp [hfalse a ha]
      rw [h1, Option.none_or]
      exact List.find?_cons_of_pos _ htrue
    have hfind : (F.reverse.find? fun r => F.all fun x => decide (x.year ≤ r.year)) = some m := by
      apply key
      · intro a ha
        refine Bool.eq_false_iff.mpr fun hall => ?_
        have hmem : m ∈ F := by
          rw [hdec]
          exact List.mem_append_right _ (List.mem_cons_self _ _)
        have h2 := of_decide_eq_true (List.all_eq_true.mp hall m hmem)
        exact absurd h2 (not_le_of_lt (hlt a (List.mem_reverse.mp ha)))
      · exact List.all_eq_true.mpr fun x hx => decide_eq_true (hmax x hx)
    rw [hfind]

/-! ## C5 -/

/-- C5, counterexample: with two editions tied on the maximal year —
the 1992 summer and winter Games, in that table order — and the filter
`"All"` keeping both, the claim's tie-break (stable sort on year
descending, first row wins) selects the FIRST tied row,
`"Barcelona"`, but the code's
`sort_values('year', ascending=False).iloc[0]`, being the reversed
ascending argsort, selects the LAST tied row,
`"Tignes-Albertville"`. -/
theorem C5_counterexample :
    specLatestHost (local_filter_by_type_and_year [barcelona92, tignes92] (some "All") 1960 2030)
        = some "Barcelona" ∧
    (mainDashboard [barcelona92, tignes92] "All" 1960 2030).latest_host
        = some "Tignes-Albertville" ∧
    main [barcelona92, tignes92] "All" 1960 2030
        = RenderResult.rendered (mainDashboard [barcelona92, tignes92] "All" 1960 2030) := by
  decide

/-- C5, amended: on any filtered table the four key metrics are the
row count, the sum of `participants_total`, the sum of
`countries_count`, and the host of a most-recent-by-year edition where
ties go to the LAST row in table order (pandas' descending sort is the
reversed stable ascending argsort, so tied years come out in reversed
table order), absent — the real `iloc[0]` would raise — exactly on the
empty filtered table; on the spec's one-row scenario the metrics are
`1`, `400`, `23` and `"Rome"`, and the filter keeps exactly that
row. -/
theorem C5_key_metrics :
    main [romeRow] "Summer" 1960 2030
      = RenderResult.rendered
          { total_games := 1, total_athletes := 400, total_countries := 23,
            latest_host := some "Rome", chart_table := [romeRow],
            detail_options := ["1960 - Rome (summer)"] } ∧
    ∀ (df : List Row) (sel : String) (lo hi : Int),
      (mainDashboard df sel lo hi).total_games
          = (local_filter_by_type_and_year df (some sel) lo hi).length ∧
      (mainDashboard df sel lo hi).total_athletes
          = ((local_filter_by_type_and_year df (some sel) lo hi).map Row.participants_total).sum ∧
      (mainDashboard df sel lo hi).total_countries
          = ((local_filter_by_type_and_year df (some sel) lo hi).map Row.countries_count).sum ∧
      (mainDashboard df sel lo hi).latest_host
          = lastMaxYearHost (local_filter_by_type_and_year df (some sel) lo hi) :=
  ⟨by decide, fun df sel lo hi => ⟨rfl, rfl, rfl, latest_host_eq_lastMaxYearHost _⟩⟩

/-! ## C3 -/

/-- When `find?` succeeds, it returns the first element satisfying the
predicate: the element satisfies it, and every element before it in the
list fails it. -/
theorem find?_some_first {α : Type} (p : α → Bool) :
    ∀ (l : List α) (a : α), l.find? p = some a →
      p a = true ∧ ∃ l₁ l₂, l = l₁ ++ a :: l₂ ∧ ∀ x ∈ l₁, p x = false := by
  intro l
  induction l with
  | nil => intro a h; cases h
  | cons b bs ih =>
    intro a h
    by_cases hb : p b = true
    · rw [List.find?_cons_of_pos _ hb] at h
      injection h with h
      subst h
      exact ⟨hb, [], bs, rfl, by simp⟩
    · rw [List.find?_cons_of_neg _ hb] at h
      obtain ⟨hpa, l₁, l₂, heq, hall⟩ := ih a h
      refine ⟨hpa, b :: l₁, l₂, by rw [heq, List.cons_append], ?_⟩
      intro x hx
      rcases List.mem_cons.mp hx with hx | hx
      · subst hx; exact Bool.eq_false_iff.mpr hb
      · exact hall x hx

/-- The mask-then-`iloc[0]` body of `local_get_by_id` is a first-match
search. -/
theorem local_get_by_id_eq_find? : ∀ (df : List Row) (i : Int),
    local_get_by_id df i = df.find? fun r => r.game_id == i := by
  intro df i
  induction df with
  | nil => rfl
  | cons r rs ih =>
    unfold local_get_by_id
    simp only [List.filter_cons]
    by_cases h : (r.game_id == i) = true
    · rw [if_pos h]
      exact (List.find?_cons_of_pos (p := fun r => r.game_id == i) rs h).symm
    · rw [if_neg h, List.find?_cons_of_neg (p := fun r => r.game_id == i) rs h]
      exact ih

/-- C3: `local_get_by_id T i` equals the first-match search on
identifier `i`; it is the absent result exactly when no row of `T` has
identifier `i`, and any returned row is the FIRST row of `T` with
identifier `i` — every row before it has a different identifier — so it
never returns a non-matching row (and, being a total function, never
throws). -/
theorem C3_get_by_id (df : List Row) (i : Int) :
    (local_get_by_id df i = df.find? fun r => r.game_id == i) ∧
    (local_get_by_id df i = none ↔ ∀ r ∈ df, r.game_id ≠ i) ∧
    (∀ r, local_get_by_id df i = some r →
        r.game_id = i ∧ ∃ l₁ l₂, df = l₁ ++ r :: l₂ ∧ ∀ x ∈ l₁, x.game_id ≠ i) := by
  refine ⟨local_get_by_id_eq_find? df i, ?_, ?_⟩
  · rw [local_get_by_id_eq_find?, List.find?_eq_none]
    constructor
    · intro h r hr
      simpa using h r hr
    · intro h r hr
      simpa using h r hr
  · intro r hr
    rw [local_get_by_id_eq_find?] at hr
    obtain ⟨hp, l₁, l₂, heq, hall⟩ := find?_some_first _ df r hr
    refine ⟨by simpa using hp, l₁, l₂, heq, ?_⟩
    intro x hx
    simpa using hall x hx

/-- C3, witness: a lookup that matches no row returns the absent
result. -/
theorem C3_witness : local_get_by_id [romeRow] 5 = none :=
  (C3_get_by_id [romeRow] 5).2.1.mpr (by decide)

theorem takeUntilComma_cons_ne {c : Char} (l : List Char) (h : ¬ c = ',') :
    takeUntilComma (c :: l) = c :: takeUntilComma l := by
  simp only [takeUntilComma]
  rw [if_neg h]

theorem pyStrip_cons_ws {c : Char} (l : List Char) (h : c.isWhitespace = true) :
    pyStrip (c :: l) = pyStrip l := by
  unfold pyStrip
  rw [List.dropWhile_cons, if_pos h]

theorem pyStrip_concat_ws {c : Char} (l : List Char) (h : c.isWhitespace = true) :
    pyStrip (l ++ [c]) = pyStrip l := by
  unfold pyStrip
  rw [List.dropWhile_append]
  by_cases he : (List.dropWhile Char.isWhitespace l).isEmpty = true
  · rw [if_pos he, List.isEmpty_iff.mp he]
    have h1 : List.dropWhile Char.isWhitespace [c] = [] := by
      rw [List.dropWhile_cons, if_pos h]
      rfl
    rw [h1]
  · rw [if_neg he, List.reverse_append]
    show ((List.dropWhile Char.isWhitespace
        ([c].reverse ++ (List.dropWhile Char.isWhitespace l).reverse))).reverse = _
    rw [List.reverse_singleton, List.singleton_append, List.dropWhile_cons, if_pos h]

theorem takeUntilComma_eq_of_not_mem : ∀ {l : List Char}, ',' ∉ l → takeUntilComma l = l := by
  intro l
  induction l with
  | nil => intro _; rfl
  | cons c cs ih =>
    intro h
    have hc : ¬ c = ',' := fun hc => h (List.mem_cons.mpr (Or.inl hc.symm))
    rw [takeUntilComma_cons_ne _ hc, ih fun hm => h (List.mem_cons_of_mem c hm)]

theorem takeUntilComma_append_not_mem : ∀ {l : List Char} (l' : List Char), ',' ∉ l →
    takeUntilComma (l ++ l') = l ++ takeUntilComma l' := by
  intro l
  induction l with
  | nil => intro l' _; rfl
  | cons c cs ih =>
    intro l' h
    have hc : ¬ c = ',' := fun hc => h (List.mem_cons.mpr (Or.inl hc.symm))
    show takeUntilComma (c :: (cs ++ l')) = c :: (cs ++ takeUntilComma l')
    rw [takeUntilComma_cons_ne _ hc, ih l' fun hm => h (List.mem_cons_of_mem c hm)]

theorem takeUntilComma_append_mem : ∀ {l : List Char} (l' : List Char), ',' ∈ l →
    takeUntilComma (l ++ l') = takeUntilComma l := by
  intro l
  induction l with
  | nil => intro l' h; cases h
  | cons c cs ih =>
    intro l' h
    show takeUntilComma (c :: (cs ++ l')) = takeUntilComma (c :: cs)
    by_cases hc : c = ','
    · simp only [takeUntilComma]
      rw [if_pos hc, if_pos hc]
    · have h' : ',' ∈ cs := by
        rcases List.mem_cons.mp h with h | h
        · exact absurd h.symm hc
        · exact h
      rw [takeUntilComma_cons_ne _ hc, takeUntilComma_cons_ne _ hc, ih l' h']

theorem firstHost_pad (s : String) :
    firstHost (some ("  " ++ s ++ "  ")) = firstHost (some s) := by
  have hdata : ("  " ++ s ++ "  ").data = ' ' :: ' ' :: (s.data ++ [' ', ' ']) := by
    rw [String.data_append, String.data_append]
    rfl
  have hne : ("  " ++ s ++ "  ") ≠ "" := by
    intro h
    have h2 := congrArg String.data h
    rw [hdata] at h2
    exact List.cons_ne_nil _ _ h2
  show (if ("  " ++ s ++ "  ") ≠ "" then
        String.mk (pyStrip (takeUntilComma ("  " ++ s ++ "  ").data)) else "")
      = (if s ≠ "" then String.mk (pyStrip (takeUntilComma s.data)) else "")
  rw [if_pos hne, hdata, takeUntilComma_cons_ne _ (by decide),
    takeUntilComma_cons_ne _ (by decide),
    pyStrip_cons_ws _ (by decide), pyStrip_cons_ws _ (by decide)]
  by_cases hs : s = ""
  · subst hs
    decide
  · rw [if_pos hs]
    by_cases hc : ',' ∈ s.data
    · rw [takeUntilComma_append_mem _ hc]
    · rw [takeUntilComma_append_not_mem _ hc, takeUntilComma_eq_of_not_mem hc,
        show takeUntilComma [' ', ' '] = [' ', ' '] from rfl,
        show s.data ++ [' ', ' '] = (s.data ++ [' ']) ++ [' '] from by simp,
        pyStrip_concat_ws _ (by decide), pyStrip_concat_ws _ (by decide)]

theorem firstHost_comma (s rest : String) (h : ',' ∉ s.data) :
    firstHost (some (s ++ "," ++ rest)) = firstHost (some s) := by
  have hdata : (s ++ "," ++ rest).data = s.data ++ ',' :: rest.data := by
    rw [String.data_append, String.data_append]
    simp
  have hne : (s ++ "," ++ rest) ≠ "" := by
    intro he
    have h2 := congrArg String.data he
    rw [hdata] at h2
    rcases List.append_eq_nil.mp h2 with ⟨_, h3⟩
    exact List.cons_ne_nil _ _ h3
  show (if (s ++ "," ++ rest) ≠ "" then
        String.mk (pyStrip (takeUntilComma (s ++ "," ++ rest).data)) else "")
      = (if s ≠ "" then String.mk (pyStrip (takeUntilComma s.data)) else "")
  rw [if_pos hne, hdata, takeUntilComma_append_not_mem _ h,
    show takeUntilComma (',' :: rest.data) = [] from by simp [takeUntilComma],
    List.append_nil]
  by_cases hs : s = ""
  · subst hs
    decide
  · rw [if_pos hs, takeUntilComma_eq_of_not_mem h]

theorem coordLookup_not_found (name : String)
    (h : ∀ p ∈ HOST_COORDINATES, p.1 ≠ name) : coordLookup name = (none, none) := by
  unfold coordLookup
  have hf : HOST_COORDINATES.filter (fun p => p.1 == name) = [] := by
    rw [List.filter_eq_nil_iff]
    intro p hp
    simpa using h p hp
  rw [hf]

/-! ## C4 -/

/-- C4: `get_lat_lon` resolves using only the first comma-separated
city (appending `", rest"` to a comma-free host never changes the
result); the compound host `"Stoke Mandeville, New York"` resolves to
Stoke Mandeville's coordinates `(51.8, -0.81)`; a host whose first
city is not in `HOST_COORDINATES` — `"Atlantis"` concretely, and any
such host in general — yields `(None, None)`, never `(0, 0)` or a
default location. -/
theorem C4_first_city_lookup :
    (∀ s rest : String, ',' ∉ s.data →
        get_lat_lon (some (s ++ "," ++ rest)) = get_lat_lon (some s)) ∧
    get_lat_lon (some "Stoke Mandeville, New York") = (some 51800000, some (-810000)) ∧
    get_lat_lon (some "Atlantis") = (none, none) ∧
    (∀ s : String, (∀ p ∈ HOST_COORDINATES, p.1 ≠ firstHost (some s)) →
        get_lat_lon (some s) = (none, none)) :=
  ⟨fun s rest h => congrArg coordLookup (firstHost_comma s rest h),
   by decide, by decide,
   fun _ h => coordLookup_not_found _ h⟩

/-- C4, witness: the first-city rule and the unknown-city rule at
concrete hosts. -/
theorem C4_witness :
    get_lat_lon (some "Rome,Paris") = get_lat_lon (some "Rome") ∧
    get_lat_lon (some "Atlantis") = (none, none) :=
  ⟨C4_first_city_lookup.1 "Rome" "Paris" (by decide),
   C4_first_city_lookup.2.2.2 "Atlantis" (by decide)⟩

/-! ## C10 -/

/-- C10: `get_lat_lon` is total on absent and empty hosts — both give
the explicit `(None, None)` without raising — and leading/trailing
whitespace around the host (hence around its first comma-separated
city) never changes the result, since the first field is stripped
before lookup. -/
theorem C10_get_lat_lon_total :
    get_lat_lon none = (none, none) ∧
    get_lat_lon (some "") = (none, none) ∧
    (∀ s : String, get_lat_lon (some ("  " ++ s ++ "  ")) = get_lat_lon (some s)) :=
  ⟨by decide, by decide, fun s => congrArg coordLookup (firstHost_pad s)⟩

/-! ## C2 -/

/-- Each cell of a cleaned column is the original cell, with `null`
replaced by the integer `0`. -/
theorem fillna0_eq (c : List Cell) :
    fillna0 c = c.map fun x => if x = Cell.null then Cell.intV 0 else x := by
  induction c with
  | nil => rfl
  | cons x xs ih =>
    show (match x with | Cell.null => Cell.intV 0 | v => v) :: fillna0 xs = _
    rw [List.map_cons, ih]
    cases x <;> rfl

/-- C2: after a 200 fetch, `load_data` keeps every column and every
present cell unchanged but replaces each missing cell — in every
column, string-typed ones included — by the integer `0`, so the
working table contains no missing-value marker at all. -/
theorem C2_fillna_all_columns (body : Frame) :
    (load_data (FetchOutcome.response 200 body)).table
        = body.map (fun col => (col.1, col.2.map fun x => if x = Cell.null then Cell.intV 0 else x)) ∧
    noMissingCells (load_data (FetchOutcome.response 200 body)).table = true := by
  constructor
  · show body.map (fun col => (col.1, fillna0 col.2)) = _
    simp only [fillna0_eq]
  · show (body.map fun col => (col.1, fillna0 col.2)).all _ = true
    rw [List.all_eq_true]
    intro col hcol
    rw [List.all_eq_true]
    intro x hx
    rcases List.mem_map.mp hcol with ⟨c, _, hc⟩
    rcases List.mem_map.mp (by rw [← hc] at hx; exact hx) with ⟨y, _, hy⟩
    cases y <;> rw [← hy] <;> rfl

/-! ## C9 -/

/-- C9: on any nonempty fetched table, the dashboard branch builds the
detail-selector options from the UNFILTERED table (the labels of the
year-descending sort of the raw table, deduplicated as Python dict
keys), so they do not depend on the selected type or year range, while
the chart input is the filtered table. -/
theorem C9_detail_selector_unfiltered (df : List Row) (sel selB : String)
    (lo hi loB hiB : Int) (h : df ≠ []) :
    main df sel lo hi = RenderResult.rendered (mainDashboard df sel lo hi) ∧
    (mainDashboard df sel lo hi).detail_options
        = dedupFirst ((sortYearDesc df).map gameLabel) ∧
    (mainDashboard df sel lo hi).detail_options
        = (mainDashboard df selB loB hiB).detail_options ∧
    (mainDashboard df sel lo hi).chart_table
        = local_filter_by_type_and_year df (some sel) lo hi :=
  ⟨by rw [main, if_neg h], rfl, rfl, rfl⟩

/-- C9, witness: the options are the same under a filter that keeps the
row and one that excludes it. -/
theorem C9_witness :
    (mainDashboard [romeRow] "Summer" 1960 2030).detail_options
      = (mainDashboard [romeRow] "Winter" 1900 1950).detail_options :=
  (C9_detail_selector_unfiltered [romeRow] "Summer" "Winter" 1960 2030 1900 1950
    (by decide)).2.2.1

end StreamlitDemo
